import Mathlib

/-!
Verification of the DIGIPIN encode/decode service.

The development shallowly embeds, over exact rational arithmetic:
* the core hierarchical-subdivision encoder/decoder (`getDigiPin`,
  `getLatLngFromDigiPin`) together with its constant domain model
  (root bounding box, 4×4 symbol grid, depth `L`, separator positions);
* the HTTP adapter layer (`routes/digipin.routes.js` and the
  content-type middleware of `app.js`), as pure functions from
  JavaScript-style request values to responses, parametrised by the
  core operation they invoke.
-/

/-- Geographic bounding box: the region still consistent with a location
estimate at the current subdivision depth. -/
structure Box where
  minLat : ℚ
  maxLat : ℚ
  minLon : ℚ
  maxLon : ℚ
deriving DecidableEq, Repr

/-- Box invariant: both axes have positive extent. -/
def Box.valid (b : Box) : Prop :=
  b.minLat < b.maxLat ∧ b.minLon < b.maxLon

/-- The point (lat, lon) lies inside the box (boundaries included). -/
def inBox (b : Box) (lat lon : ℚ) : Prop :=
  b.minLat ≤ lat ∧ lat ≤ b.maxLat ∧ b.minLon ≤ lon ∧ lon ≤ b.maxLon

/-- Modelled from the spec: the core digipin module is not under src/, so
the root bounding box constant is taken from the spec's description of the
scheme (a fixed geographic rectangle; it contains the spec's scenario
point (28.6139, 77.2090)).  The concrete bounds are the DIGIPIN root
region 2.5..38.5 °N × 63.5..99.5 °E. -/
def rootBox : Box :=
  { minLat := 5 / 2, maxLat := 77 / 2, minLon := 127 / 2, maxLon := 199 / 2 }

/-- Modelled from the spec: the fixed subdivision depth (number of levels). -/
def L : Nat := 10

/-- Modelled from the spec: the fixed 4×4 symbol table, row by row
(rows run high-latitude to low-latitude). -/
def gridRows : List (List Char) :=
  [['F', 'C', '9', '8'],
   ['J', '3', '2', '7'],
   ['K', '4', '5', '6'],
   ['L', 'M', 'P', 'T']]

/-- The 16-symbol alphabet of the symbol grid. -/
def digipinAlphabet : List Char :=
  ['F', 'C', '9', '8', 'J', '3', '2', '7', 'K', '4', '5', '6', 'L', 'M', 'P', 'T']

/-- Modelled from the spec: the inverse of the symbol grid, mapping a
character back to its (row, col) cell; `none` for characters outside the
alphabet. -/
def gridLookup (ch : Char) : Option (ℤ × ℤ) :=
  match ch with
  | 'F' => some (0, 0) | 'C' => some (0, 1) | '9' => some (0, 2) | '8' => some (0, 3)
  | 'J' => some (1, 0) | '3' => some (1, 1) | '2' => some (1, 2) | '7' => some (1, 3)
  | 'K' => some (2, 0) | '4' => some (2, 1) | '5' => some (2, 2) | '6' => some (2, 3)
  | 'L' => some (3, 0) | 'M' => some (3, 1) | 'P' => some (3, 2) | 'T' => some (3, 3)
  | _ => none

/-- Clamp a computed index into [0, 3] (spec §4.1 step 3). -/
def clampIdx (i : ℤ) : ℤ := max 0 (min i 3)

/-- Table lookup for a (row, col) pair; total via `Option`, `none` when the
index is outside the 4×4 table. -/
def symbolAt (rc : ℤ × ℤ) : Option Char :=
  if rc.1 < 0 ∨ rc.2 < 0 then none
  else
    match gridRows.get? rc.1.toNat with
    | none => none
    | some row => row.get? rc.2.toNat

/-- Modelled from the spec: the sub-cell of the current box containing the
point.  The row index decreases as latitude increases, the column index
increases as longitude increases, and both are clamped into [0, 3]. -/
def cellOf (b : Box) (lat lon : ℚ) : ℤ × ℤ :=
  (clampIdx (3 - ⌊(lat - b.minLat) / ((b.maxLat - b.minLat) / 4)⌋),
   clampIdx ⌊(lon - b.minLon) / ((b.maxLon - b.minLon) / 4)⌋)

/-- Modelled from the spec: narrow the bounding box to the selected
sub-cell (row r spans latitudes [maxLat − d·(r+1), maxLat − d·r], column c
spans longitudes [minLon + d·c, minLon + d·(c+1)]). -/
def narrow (b : Box) (rc : ℤ × ℤ) : Box :=
  { minLat := b.maxLat - (b.maxLat - b.minLat) / 4 * ((rc.1 : ℚ) + 1)
    maxLat := b.maxLat - (b.maxLat - b.minLat) / 4 * (rc.1 : ℚ)
    minLon := b.minLon + (b.maxLon - b.minLon) / 4 * (rc.2 : ℚ)
    maxLon := b.minLon + (b.maxLon - b.minLon) / 4 * ((rc.2 : ℚ) + 1) }

/-- Which axis of the root box a coordinate violated. -/
inductive Axis
  | lat
  | lon
deriving DecidableEq, Repr

/-- Which bound of the violated axis. -/
inductive Bound
  | below
  | above
deriving DecidableEq, Repr

/-- Modelled from the spec: the core failure taxonomy.
`InternalIndexError` is a distinguished impossible case making the
symbol-table lookup total; it is proved unreachable. -/
inductive CoreError
  | CoordinateOutOfRange (axis : Axis) (bound : Bound)
  | InvalidCodeLength (n : Nat)
  | InvalidCodeSymbol (c : Char)
  | InternalIndexError
deriving DecidableEq, Repr

/-- Modelled from the spec: each failure kind carries a human-readable
message (representative text; the kinds are what matter). -/
def CoreError.message : CoreError → String
  | .CoordinateOutOfRange .lat .below => "Latitude below root bounding box"
  | .CoordinateOutOfRange .lat .above => "Latitude above root bounding box"
  | .CoordinateOutOfRange .lon .below => "Longitude below root bounding box"
  | .CoordinateOutOfRange .lon .above => "Longitude above root bounding box"
  | .InvalidCodeLength _ => "Invalid code length"
  | .InvalidCodeSymbol _ => "Invalid character in code"
  | .InternalIndexError => "Internal error"

/-- Modelled from the spec: one symbol per level; each level selects the
sub-cell of the point, emits its symbol and recurses on the narrowed box. -/
def encodeLevels : Nat → Box → ℚ → ℚ → Except CoreError (List Char)
  | 0, _, _, _ => .ok []
  | n + 1, b, lat, lon =>
    match symbolAt (cellOf b lat lon) with
    | none => .error .InternalIndexError
    | some ch => (encodeLevels n (narrow b (cellOf b lat lon)) lat lon).map (fun syms => ch :: syms)

/-- Modelled from the spec: separator characters are inserted at fixed
positions, immediately after the 3rd and the 6th symbol. -/
def insertSeps (cs : List Char) : List Char :=
  cs.take 3 ++ ['-'] ++ (cs.drop 3).take 3 ++ ['-'] ++ cs.drop 6

/-- Modelled from the spec: the core encoder.  Rejects coordinates outside
the root box, identifying the violated axis and bound; otherwise runs `L`
subdivision levels and inserts the separators. -/
def getDigiPin (lat lon : ℚ) : Except CoreError String :=
  if lat < rootBox.minLat then .error (.CoordinateOutOfRange .lat .below)
  else if lat > rootBox.maxLat then .error (.CoordinateOutOfRange .lat .above)
  else if lon < rootBox.minLon then .error (.CoordinateOutOfRange .lon .below)
  else if lon > rootBox.maxLon then .error (.CoordinateOutOfRange .lon .above)
  else (encodeLevels L rootBox lat lon).map (fun syms => String.mk (insertSeps syms))

/-- Remove separator characters (spec: separators carry no information and
are stripped before decode validation). -/
def stripSeps (cs : List Char) : List Char :=
  cs.filter (fun c => c != '-')

/-- Modelled from the spec: replay the narrowing for each symbol, using the
inverse symbol grid; unknown characters fail with `InvalidCodeSymbol`. -/
def decodeLoop : List Char → Box → Except CoreError Box
  | [], b => .ok b
  | ch :: cs, b =>
    match gridLookup ch with
    | none => .error (.InvalidCodeSymbol ch)
    | some rc => decodeLoop cs (narrow b rc)

/-- Decode result: the representative (midpoint) coordinate plus the
final-level bounding box. -/
structure DecodeResult where
  latitude : ℚ
  longitude : ℚ
  box : Box
deriving DecidableEq, Repr

deriving instance DecidableEq for Except

/-- Modelled from the spec: the core decoder.  Strips separators, checks
the length is exactly `L`, then replays the subdivision; returns the final
box and its midpoint. -/
def getLatLngFromDigiPin (s : String) : Except CoreError DecodeResult :=
  let pin := stripSeps s.data
  if pin.length = L then
    (decodeLoop pin rootBox).map (fun b =>
      { latitude := (b.minLat + b.maxLat) / 2
        longitude := (b.minLon + b.maxLon) / 2
        box := b })
  else .error (.InvalidCodeLength pin.length)

/-- The root-box violation named by an axis/bound pair. -/
def outOfRangeOn (lat lon : ℚ) : Axis → Bound → Prop
  | .lat, .below => lat < rootBox.minLat
  | .lat, .above => lat > rootBox.maxLat
  | .lon, .below => lon < rootBox.minLon
  | .lon, .above => lon > rootBox.maxLon

/-- Latitude extent of a level-`L` cell. -/
def levelCellLat : ℚ := (rootBox.maxLat - rootBox.minLat) / 4 ^ L

/-- Longitude extent of a level-`L` cell. -/
def levelCellLon : ℚ := (rootBox.maxLon - rootBox.minLon) / 4 ^ L

/-!
Adapter layer: JavaScript-style request values and the Express routes.
-/

/-- A JavaScript number: finite, NaN, or an infinity.  The sign of an
infinity is irrelevant to the adapter (only finiteness is ever tested), so
both infinities share one constructor. -/
inductive JsNum
  | finite (q : ℚ)
  | nan
  | infinite
deriving DecidableEq, Repr

/-- A JavaScript value as it can appear in a parsed JSON body or an
Express query object. -/
inductive JsVal
  | undef
  | null
  | str (s : String)
  | num (n : JsNum)
  | boolean (b : Bool)
  | object
  | array
deriving DecidableEq, Repr

/-- JavaScript `typeof`. -/
def typeofStr : JsVal → String
  | .undef => "undefined"
  | .null => "object"
  | .str _ => "string"
  | .num _ => "number"
  | .boolean _ => "boolean"
  | .object => "object"
  | .array => "object"

/-- Is the value a string? -/
def JsVal.isStr : JsVal → Bool
  | .str _ => true
  | _ => false

/-- The underlying string of a string value (dummy otherwise; the handlers
only use it after `isStr` holds). -/
def JsVal.asStr : JsVal → String
  | .str s => s
  | _ => ""

/-- JavaScript truthiness. -/
def truthy : JsVal → Bool
  | .undef => false
  | .null => false
  | .str s => s ≠ ""
  | .num (.finite q) => q ≠ 0
  | .num .nan => false
  | .num .infinite => true
  | .boolean b => b
  | .object => true
  | .array => true

/-- Values Express can deliver for a single query parameter: absent, a
string, or (from bracket/repeat syntax) an array or nested object. -/
def isQueryVal : JsVal → Prop
  | .undef => True
  | .str _ => True
  | .array => True
  | .object => True
  | _ => False

/-- Decimal digit value of a character, if any. -/
def digitVal (c : Char) : Option Nat :=
  if '0' ≤ c ∧ c ≤ '9' then some (c.toNat - '0'.toNat) else none

/-- Consume a maximal run of decimal digits: returns (value, digit count,
rest of the input). -/
def takeDigits : List Char → Nat × Nat × List Char
  | [] => (0, 0, [])
  | c :: cs =>
    match digitVal c with
    | none => (0, 0, c :: cs)
    | some d =>
      let (v, n, rest) := takeDigits cs
      (d * 10 ^ n + v, n + 1, rest)

/-- Does the first list start with the second one? -/
def startsWith : List Char → List Char → Bool
  | _, [] => true
  | [], _ :: _ => false
  | a :: as, b :: bs => a == b && startsWith as bs

/-- Does the first list contain the second as a contiguous run? -/
def containsSub : List Char → List Char → Bool
  | [], pat => startsWith [] pat
  | h :: t, pat => startsWith (h :: t) pat || containsSub t pat

/-- Model of JavaScript `parseFloat` on a string: skip leading whitespace,
read an optional sign, then either an `Infinity` keyword or the longest
mantissa-with-optional-exponent run; NaN when no digits were read.
Trailing characters are ignored. -/
def parseFloat (s : String) : JsNum :=
  let cs := s.data.dropWhile Char.isWhitespace
  let sc : ℚ × List Char :=
    match cs with
    | '+' :: rest => (1, rest)
    | '-' :: rest => (-1, rest)
    | _ => (1, cs)
  if startsWith sc.2 ['I', 'n', 'f', 'i', 'n', 'i', 't', 'y'] then JsNum.infinite
  else
    let (ip, nI, r1) := takeDigits sc.2
    let fr : Nat × Nat × List Char :=
      match r1 with
      | '.' :: rest => takeDigits rest
      | _ => (0, 0, r1)
    if nI + fr.2.1 = 0 then JsNum.nan
    else
      let base : ℚ := sc.1 * ((ip : ℚ) + (fr.1 : ℚ) / 10 ^ fr.2.1)
      let expVal : ℤ :=
        match fr.2.2 with
        | e :: rest =>
          if e = 'e' ∨ e = 'E' then
            let sr : ℤ × List Char :=
              match rest with
              | '+' :: r => (1, r)
              | '-' :: r => (-1, r)
              | _ => (1, rest)
            let (ev, ne, _) := takeDigits sr.2
            if ne = 0 then 0 else sr.1 * (ev : ℤ)
          else 0
        | [] => 0
      JsNum.finite (base * (10 : ℚ) ^ expVal)

/-- JavaScript `parseFloat` applied to an arbitrary value (the argument is
coerced to a string first).  Numbers round-trip through their decimal
rendering; `undefined`, `null`, booleans and plain objects stringify to
non-numeric text.  (Arrays may stringify to numeric text, but the handlers
only reach `parseFloat` after `isValidNumber`, which rejects arrays.) -/
def parseFloatVal : JsVal → JsNum
  | .str s => parseFloat s
  | .num n => n
  | _ => .nan

/-- `isValidNumber` from the routes file: a string is parsed with
`parseFloat` first; the result must be a number that is neither NaN nor
infinite. -/
def isValidNumber (v : JsVal) : Bool :=
  match v with
  | .str s =>
    match parseFloat s with
    | .finite _ => true
    | _ => false
  | .num (.finite _) => true
  | _ => false

/-- `isValidString` from the routes file: a string whose trimmed length is
positive, i.e. one containing at least one non-whitespace character. -/
def isValidString (v : JsVal) : Bool :=
  match v with
  | .str s => s.data.any (fun c => !c.isWhitespace)
  | _ => false

/-- The finite numeric value of a validated input: the `parseFloat` result
for strings, the value itself for finite numbers (dummy 0 in the cases
`isValidNumber` rejects, which the handlers never reach). -/
def numValue : JsVal → ℚ
  | .str s =>
    match parseFloat s with
    | .finite q => q
    | _ => 0
  | .num (.finite q) => q
  | _ => 0

/-- Response body of a successful call. -/
inductive RespBody
  | pin (digipin : String)
  | coords (res : DecodeResult)
deriving DecidableEq, Repr

/-- An HTTP response as produced by the adapter: 200 with a body, or an
error status with a machine-readable code and a human-readable message. -/
inductive ApiResponse
  | ok (body : RespBody)
  | err (status : Nat) (code : String) (message : String)
deriving DecidableEq, Repr

/-- The machine-readable error code of a response, if it is an error. -/
def respCode : ApiResponse → Option String
  | .ok _ => none
  | .err _ c _ => some c

/-- The HTTP status of a response. -/
def respStatus : ApiResponse → Nat
  | .ok _ => 200
  | .err st _ _ => st

/-- Map a core encode result to a response (the route's try/catch: any
core failure becomes 400 `ENCODING_FAILED` with the core's message). -/
def encodeRespond : Except CoreError String → ApiResponse
  | .ok pin => .ok (.pin pin)
  | .error e => .err 400 "ENCODING_FAILED" e.message

/-- Map a core decode result to a response (the route's try/catch: any
core failure becomes 400 `DECODING_FAILED` with the core's message). -/
def decodeRespond : Except CoreError DecodeResult → ApiResponse
  | .ok d => .ok (.coords d)
  | .error e => .err 400 "DECODING_FAILED" e.message

/-- POST /encode handler, parametrised by the core encode operation. -/
def postEncodeWith (core : ℚ → ℚ → Except CoreError String)
    (latitude longitude : JsVal) : ApiResponse :=
  if latitude = .undef ∨ latitude = .null then
    .err 400 "MISSING_LATITUDE" "Missing required field: latitude"
  else if longitude = .undef ∨ longitude = .null then
    .err 400 "MISSING_LONGITUDE" "Missing required field: longitude"
  else if !isValidNumber latitude then
    .err 400 "INVALID_LATITUDE" "Invalid latitude: must be a valid number"
  else if !isValidNumber longitude then
    .err 400 "INVALID_LONGITUDE" "Invalid longitude: must be a valid number"
  else encodeRespond (core (numValue latitude) (numValue longitude))

/-- GET /encode handler, parametrised by the core encode operation. -/
def getEncodeWith (core : ℚ → ℚ → Except CoreError String)
    (latitude longitude : JsVal) : ApiResponse :=
  if !truthy latitude || !truthy longitude then
    .err 400 "MISSING_PARAMETERS" "Missing required query parameters: latitude and longitude"
  else if !isValidNumber latitude then
    .err 400 "INVALID_LATITUDE" "Invalid latitude: must be a valid number"
  else if !isValidNumber longitude then
    .err 400 "INVALID_LONGITUDE" "Invalid longitude: must be a valid number"
  else encodeRespond (core (numValue latitude) (numValue longitude))

/-- POST /decode handler, parametrised by the core decode operation. -/
def postDecodeWith (core : String → Except CoreError DecodeResult)
    (digipin : JsVal) : ApiResponse :=
  if digipin = .undef ∨ digipin = .null then
    .err 400 "MISSING_DIGIPIN" "Missing required field: digipin"
  else if !digipin.isStr then
    .err 400 "INVALID_DIGIPIN_TYPE"
      ("Invalid digipin type: expected string, received " ++ typeofStr digipin)
  else if !isValidString digipin then
    .err 400 "INVALID_DIGIPIN" "Invalid digipin: must be a non-empty string"
  else decodeRespond (core digipin.asStr)

/-- GET /decode handler, parametrised by the core decode operation. -/
def getDecodeWith (core : String → Except CoreError DecodeResult)
    (digipin : JsVal) : ApiResponse :=
  if !truthy digipin then
    .err 400 "MISSING_DIGIPIN" "Missing required query parameter: digipin"
  else if !digipin.isStr then
    .err 400 "INVALID_DIGIPIN_TYPE"
      ("Invalid digipin type: expected string, received " ++ typeofStr digipin)
  else if !isValidString digipin then
    .err 400 "INVALID_DIGIPIN" "Invalid digipin: must be a non-empty string"
  else decodeRespond (core digipin.asStr)

/-- The POST /encode route with the real core. -/
def postEncode (latitude longitude : JsVal) : ApiResponse :=
  postEncodeWith getDigiPin latitude longitude

/-- The GET /encode route with the real core. -/
def getEncodeRoute (latitude longitude : JsVal) : ApiResponse :=
  getEncodeWith getDigiPin latitude longitude

/-- The POST /decode route with the real core. -/
def postDecode (digipin : JsVal) : ApiResponse :=
  postDecodeWith getLatLngFromDigiPin digipin

/-- The GET /decode route with the real core. -/
def getDecodeRoute (digipin : JsVal) : ApiResponse :=
  getDecodeWith getLatLngFromDigiPin digipin

/-- HTTP methods relevant to the middleware. -/
inductive Method
  | GET
  | POST
  | PUT
  | PATCH
  | DELETE
deriving DecidableEq, Repr

/-- Is the Content-Type header (absent, or its value) unacceptable to the
middleware on a body-carrying method? -/
def ctBad : Option String → Bool
  | none => true
  | some s => !containsSub s.data "application/json".data

/-- The 415 response produced by the middleware. -/
def ctErrResp : ApiResponse :=
  .err 415 "INVALID_CONTENT_TYPE" "Unsupported Media Type: Content-Type must be application/json"

/-- `validateJsonContentType` from app.js: POST/PUT/PATCH requests whose
Content-Type header is absent or does not contain "application/json" are
rejected with 415; `none` means the request is passed on. -/
def validateJsonContentType (m : Method) (contentType : Option String) : Option ApiResponse :=
  if m = .POST ∨ m = .PUT ∨ m = .PATCH then
    match contentType with
    | none => some ctErrResp
    | some ct => if !containsSub ct.data "application/json".data then some ctErrResp else none
  else none

/-- The app pipeline: the middleware runs before route dispatch, for every
path; only when it passes does the route handler run. -/
def appPipeline (m : Method) (ct : Option String)
    (route : Method → String → ApiResponse) (path : String) : ApiResponse :=
  match validateJsonContentType m ct with
  | some r => r
  | none => route m path

/-!
Lemmas about the core subdivision.
-/

theorem clampIdx_nonneg (i : ℤ) : 0 ≤ clampIdx i := by
  unfold clampIdx; omega

theorem clampIdx_le_three (i : ℤ) : clampIdx i ≤ 3 := by
  unfold clampIdx; omega

theorem clampIdx_flip (k : ℤ) (hk : 0 ≤ k) : clampIdx (3 - k) = 3 - clampIdx k := by
  unfold clampIdx; omega

theorem cellOf_row_nonneg (b : Box) (lat lon : ℚ) : 0 ≤ (cellOf b lat lon).1 :=
  clampIdx_nonneg _

theorem cellOf_row_le (b : Box) (lat lon : ℚ) : (cellOf b lat lon).1 ≤ 3 :=
  clampIdx_le_three _

theorem cellOf_col_nonneg (b : Box) (lat lon : ℚ) : 0 ≤ (cellOf b lat lon).2 :=
  clampIdx_nonneg _

theorem cellOf_col_le (b : Box) (lat lon : ℚ) : (cellOf b lat lon).2 ≤ 3 :=
  clampIdx_le_three _

theorem symbolAt_bounded (r c : ℤ) (h0 : 0 ≤ r) (h1 : r ≤ 3) (h2 : 0 ≤ c) (h3 : c ≤ 3) :
    ∃ ch, symbolAt (r, c) = some ch ∧ gridLookup ch = some (r, c) ∧
      ch ∈ digipinAlphabet ∧ ch ≠ '-' := by
  interval_cases r <;> interval_cases c <;> exact ⟨_, rfl, by decide, by decide, by decide⟩

theorem symbolAt_cellOf (b : Box) (lat lon : ℚ) :
    ∃ ch, symbolAt (cellOf b lat lon) = some ch ∧
      gridLookup ch = some (cellOf b lat lon) ∧ ch ∈ digipinAlphabet ∧ ch ≠ '-' := by
  obtain ⟨ch, h⟩ := symbolAt_bounded (cellOf b lat lon).1 (cellOf b lat lon).2
    (cellOf_row_nonneg b lat lon) (cellOf_row_le b lat lon)
    (cellOf_col_nonneg b lat lon) (cellOf_col_le b lat lon)
  exact ⟨ch, by simpa using h⟩

theorem subcell_bounds (lo hi x : ℚ) (hlt : lo < hi) (h1 : lo ≤ x) (h2 : x ≤ hi) :
    lo + (hi - lo) / 4 * (clampIdx ⌊(x - lo) / ((hi - lo) / 4)⌋ : ℚ) ≤ x ∧
    x ≤ lo + (hi - lo) / 4 * ((clampIdx ⌊(x - lo) / ((hi - lo) / 4)⌋ : ℚ) + 1) ∧
    0 ≤ ⌊(x - lo) / ((hi - lo) / 4)⌋ := by
  set d : ℚ := (hi - lo) / 4 with hd_def
  have hd : 0 < d := by
    rw [hd_def]
    exact div_pos (by linarith) (by norm_num)
  have h4d : 4 * d = hi - lo := by rw [hd_def]; ring
  set t : ℚ := (x - lo) / d with ht_def
  have ht0 : 0 ≤ t := by
    rw [ht_def]
    exact div_nonneg (by linarith) hd.le
  have ht4 : t ≤ 4 := by
    rw [ht_def, div_le_iff₀ hd]
    linarith
  have hk0 : 0 ≤ ⌊t⌋ := Int.floor_nonneg.mpr ht0
  have hk4 : ⌊t⌋ ≤ 4 := by
    have h := Int.floor_le_floor ht4
    simpa using h
  have hfl : (⌊t⌋ : ℚ) * d ≤ x - lo := by
    have := Int.floor_le t
    calc (⌊t⌋ : ℚ) * d ≤ t * d := by nlinarith
    _ = x - lo := by
        rw [ht_def]
        field_simp
  have hfu : x - lo < ((⌊t⌋ : ℚ) + 1) * d := by
    have h := Int.lt_floor_add_one t
    have : t * d < ((⌊t⌋ : ℚ) + 1) * d := by nlinarith
    calc x - lo = t * d := by rw [ht_def]; field_simp
    _ < ((⌊t⌋ : ℚ) + 1) * d := this
  refine ⟨?_, ?_, hk0⟩ <;>
  · set k : ℤ := ⌊t⌋ with hk_def
    interval_cases k <;>
    · simp only [clampIdx] at *
      norm_num at hfl hfu ⊢
      linarith

theorem narrow_widthLat (b : Box) (rc : ℤ × ℤ) :
    (narrow b rc).maxLat - (narrow b rc).minLat = (b.maxLat - b.minLat) / 4 := by
  simp only [narrow]; ring

theorem narrow_widthLon (b : Box) (rc : ℤ × ℤ) :
    (narrow b rc).maxLon - (narrow b rc).minLon = (b.maxLon - b.minLon) / 4 := by
  simp only [narrow]; ring

theorem narrow_valid (b : Box) (rc : ℤ × ℤ) (hv : b.valid) : (narrow b rc).valid := by
  obtain ⟨h1, h2⟩ := hv
  constructor
  · have := narrow_widthLat b rc
    linarith
  · have := narrow_widthLon b rc
    linarith

theorem narrow_inBox (b : Box) (lat lon : ℚ) (hv : b.valid) (hin : inBox b lat lon) :
    inBox (narrow b (cellOf b lat lon)) lat lon := by
  obtain ⟨hv1, hv2⟩ := hv
  obtain ⟨h1, h2, h3, h4⟩ := hin
  obtain ⟨la1, la2, la3⟩ := subcell_bounds b.minLat b.maxLat lat hv1 h1 h2
  obtain ⟨lo1, lo2, _⟩ := subcell_bounds b.minLon b.maxLon lon hv2 h3 h4
  have hrow : (cellOf b lat lon).1 =
      3 - clampIdx ⌊(lat - b.minLat) / ((b.maxLat - b.minLat) / 4)⌋ := by
    simp only [cellOf]
    exact clampIdx_flip _ la3
  have hrowq : ((cellOf b lat lon).1 : ℚ) =
      3 - (clampIdx ⌊(lat - b.minLat) / ((b.maxLat - b.minLat) / 4)⌋ : ℚ) := by
    rw [hrow]; push_cast; ring
  have hcol : (cellOf b lat lon).2 = clampIdx ⌊(lon - b.minLon) / ((b.maxLon - b.minLon) / 4)⌋ := rfl
  refine ⟨?_, ?_, ?_, ?_⟩
  · show (narrow b (cellOf b lat lon)).minLat ≤ lat
    simp only [narrow]
    rw [hrowq]
    nlinarith [la1]
  · show lat ≤ (narrow b (cellOf b lat lon)).maxLat
    simp only [narrow]
    rw [hrowq]
    nlinarith [la2]
  · show (narrow b (cellOf b lat lon)).minLon ≤ lon
    simp only [narrow]
    rw [hcol]
    linarith [lo1]
  · show lon ≤ (narrow b (cellOf b lat lon)).maxLon
    simp only [narrow]
    rw [hcol]
    linarith [lo2]

theorem encodeLevels_ok (n : Nat) :
    ∀ b lat lon, ∃ syms, encodeLevels n b lat lon = .ok syms ∧ syms.length = n ∧
      ∀ c ∈ syms, c ∈ digipinAlphabet ∧ c ≠ '-' := by
  induction n with
  | zero => exact fun b lat lon => ⟨[], rfl, rfl, by simp⟩
  | succ n ih =>
    intro b lat lon
    obtain ⟨ch, hch, _, hmem, hne⟩ := symbolAt_cellOf b lat lon
    obtain ⟨syms, hs, hl, hall⟩ := ih (narrow b (cellOf b lat lon)) lat lon
    refine ⟨ch :: syms, ?_, by simp [hl], ?_⟩
    · simp only [encodeLevels, hch, hs, Except.map]
    · intro c hc
      rcases List.mem_cons.mp hc with h | h
      · exact h ▸ ⟨hmem, hne⟩
      · exact hall c h

theorem decode_replay (n : Nat) :
    ∀ b lat lon syms, b.valid → inBox b lat lon → encodeLevels n b lat lon = .ok syms →
    ∃ b', decodeLoop syms b = .ok b' ∧ inBox b' lat lon ∧ b'.valid ∧
      b'.maxLat - b'.minLat = (b.maxLat - b.minLat) / 4 ^ n ∧
      b'.maxLon - b'.minLon = (b.maxLon - b.minLon) / 4 ^ n := by
  induction n with
  | zero =>
    intro b lat lon syms hv hin h
    simp only [encodeLevels] at h
    obtain rfl : ([] : List Char) = syms := by
      simpa using h
    exact ⟨b, rfl, hin, hv, by simp, by simp⟩
  | succ n ih =>
    intro b lat lon syms hv hin h
    obtain ⟨ch, hch, hlook, _, _⟩ := symbolAt_cellOf b lat lon
    simp only [encodeLevels, hch] at h
    rcases hrec : encodeLevels n (narrow b (cellOf b lat lon)) lat lon with e | rest
    · rw [hrec] at h
      simp [Except.map] at h
    · rw [hrec] at h
      simp only [Except.map] at h
      obtain rfl : ch :: rest = syms := by
        simpa using h
      obtain ⟨b', hb', hin', hv', hwa, hwo⟩ :=
        ih (narrow b (cellOf b lat lon)) lat lon rest
          (narrow_valid b _ hv) (narrow_inBox b lat lon hv hin) hrec
      refine ⟨b', ?_, hin', hv', ?_, ?_⟩
      · simp only [decodeLoop, hlook]
        exact hb'
      · rw [hwa, narrow_widthLat, pow_succ]
        ring
      · rw [hwo, narrow_widthLon, pow_succ]
        ring

theorem stripSeps_insertSeps (syms : List Char) (h : ∀ c ∈ syms, c ≠ '-') :
    stripSeps (insertSeps syms) = syms := by
  have hf : ∀ (l : List Char), l ⊆ syms → l.filter (fun c => c != '-') = l := by
    intro l hsub
    apply List.filter_eq_self.mpr
    intro c hc
    simpa using h c (hsub hc)
  unfold stripSeps insertSeps
  rw [List.filter_append, List.filter_append, List.filter_append, List.filter_append]
  rw [hf _ (List.take_subset _ _),
      hf _ (List.Subset.trans (List.take_subset _ _) (List.drop_subset _ _)),
      hf _ (List.drop_subset _ _)]
  simp only [List.filter_cons, List.filter_nil]
  norm_num
  calc syms.take 3 ++ ((syms.drop 3).take 3 ++ syms.drop 6)
      = syms.take 3 ++ ((syms.drop 3).take 3 ++ (syms.drop 3).drop 3) := by
        rw [List.drop_drop]
    _ = syms.take 3 ++ syms.drop 3 := by rw [List.take_append_drop]
    _ = syms := List.take_append_drop _ _

theorem getDigiPin_inRange (lat lon : ℚ)
    (h1 : rootBox.minLat ≤ lat) (h2 : lat ≤ rootBox.maxLat)
    (h3 : rootBox.minLon ≤ lon) (h4 : lon ≤ rootBox.maxLon) :
    ∃ syms, encodeLevels L rootBox lat lon = .ok syms ∧
      getDigiPin lat lon = .ok (String.mk (insertSeps syms)) ∧
      syms.length = L ∧ (∀ c ∈ syms, c ∈ digipinAlphabet ∧ c ≠ '-') := by
  obtain ⟨syms, hs, hl, hall⟩ := encodeLevels_ok L rootBox lat lon
  refine ⟨syms, hs, ?_, hl, hall⟩
  unfold getDigiPin
  rw [if_neg (not_lt.mpr h1), if_neg (not_lt.mpr h2), if_neg (not_lt.mpr h3),
      if_neg (not_lt.mpr h4), hs]
  rfl

/-- Claim C1: for every (lat, lon) inside the root bounding box, encoding
succeeds, decoding the produced code succeeds, and the decoded midpoint
lies within half the level-L cell diagonal of the original point
(stated via squared Euclidean distance). -/
theorem C1_round_trip_bound (lat lon : ℚ)
    (h1 : rootBox.minLat ≤ lat) (h2 : lat ≤ rootBox.maxLat)
    (h3 : rootBox.minLon ≤ lon) (h4 : lon ≤ rootBox.maxLon) :
    ∃ (pin : String) (res : DecodeResult),
      getDigiPin lat lon = .ok pin ∧ getLatLngFromDigiPin pin = .ok res ∧
      (res.latitude - lat) ^ 2 + (res.longitude - lon) ^ 2 ≤
        (levelCellLat ^ 2 + levelCellLon ^ 2) / 4 := by
  obtain ⟨syms, hs, hpin, hl, hall⟩ := getDigiPin_inRange lat lon h1 h2 h3 h4
  obtain ⟨b', hb', hin', _, hwa, hwo⟩ :=
    decode_replay L rootBox lat lon syms (by constructor <;> norm_num [rootBox]) ⟨h1, h2, h3, h4⟩ hs
  have hdata : (String.mk (insertSeps syms)).data = insertSeps syms := rfl
  have hstrip : stripSeps (String.mk (insertSeps syms)).data = syms := by
    rw [hdata]
    exact stripSeps_insertSeps syms (fun c hc => (hall c hc).2)
  refine ⟨String.mk (insertSeps syms),
    ⟨(b'.minLat + b'.maxLat) / 2, (b'.minLon + b'.maxLon) / 2, b'⟩, hpin, ?_, ?_⟩
  · unfold getLatLngFromDigiPin
    rw [hstrip, if_pos hl, hb']
    rfl
  · have e1 : b'.maxLat - b'.minLat = levelCellLat := hwa
    have e2 : b'.maxLon - b'.minLon = levelCellLon := hwo
    have k1 : (0 : ℚ) ≤ (lat - b'.minLat) * (b'.maxLat - lat) :=
      mul_nonneg (by linarith [hin'.1]) (by linarith [hin'.2.1])
    have k2 : (0 : ℚ) ≤ (lon - b'.minLon) * (b'.maxLon - lon) :=
      mul_nonneg (by linarith [hin'.2.2.1]) (by linarith [hin'.2.2.2])
    have q1 : ((b'.minLat + b'.maxLat) / 2 - lat) ^ 2 ≤ levelCellLat ^ 2 / 4 := by
      rw [← e1]
      nlinarith [k1]
    have q2 : ((b'.minLon + b'.maxLon) / 2 - lon) ^ 2 ≤ levelCellLon ^ 2 / 4 := by
      rw [← e2]
      nlinarith [k2]
    show ((b'.minLat + b'.maxLat) / 2 - lat) ^ 2 + ((b'.minLon + b'.maxLon) / 2 - lon) ^ 2 ≤ _
    linarith

/-- Claim C1 witness: the round-trip bound instantiated at the spec's
New Delhi scenario point (28.6139, 77.2090). -/
theorem C1_round_trip_bound_witness :
    rootBox.minLat ≤ 286139 / 10000 ∧ (286139 / 10000 : ℚ) ≤ rootBox.maxLat ∧
    rootBox.minLon ≤ 772090 / 10000 ∧ (772090 / 10000 : ℚ) ≤ rootBox.maxLon ∧
    ∃ (pin : String) (res : DecodeResult),
      getDigiPin (286139 / 10000) (772090 / 10000) = .ok pin ∧
      getLatLngFromDigiPin pin = .ok res ∧
      (res.latitude - 286139 / 10000) ^ 2 + (res.longitude - 772090 / 10000) ^ 2 ≤
        (levelCellLat ^ 2 + levelCellLon ^ 2) / 4 :=
  ⟨by norm_num [rootBox], by norm_num [rootBox], by norm_num [rootBox], by norm_num [rootBox],
   C1_round_trip_bound (286139 / 10000) (772090 / 10000)
     (by norm_num [rootBox]) (by norm_num [rootBox]) (by norm_num [rootBox]) (by norm_num [rootBox])⟩

/-- Claim C2: for every in-range input the encoder returns a code whose
separator-stripped form has exactly L characters, all from the 16-symbol
alphabet, and whose separators sit exactly after the 3rd and the 6th
symbol. -/
theorem C2_fixed_shape (lat lon : ℚ)
    (h1 : rootBox.minLat ≤ lat) (h2 : lat ≤ rootBox.maxLat)
    (h3 : rootBox.minLon ≤ lon) (h4 : lon ≤ rootBox.maxLon) :
    ∃ pin : String, getDigiPin lat lon = .ok pin ∧
      (stripSeps pin.data).length = L ∧
      (∀ c ∈ stripSeps pin.data, c ∈ digipinAlphabet) ∧
      pin.data = insertSeps (stripSeps pin.data) := by
  obtain ⟨syms, _, hpin, hl, hall⟩ := getDigiPin_inRange lat lon h1 h2 h3 h4
  have hdata : (String.mk (insertSeps syms)).data = insertSeps syms := rfl
  have hstrip : stripSeps (String.mk (insertSeps syms)).data = syms := by
    rw [hdata]
    exact stripSeps_insertSeps syms (fun c hc => (hall c hc).2)
  refine ⟨String.mk (insertSeps syms), hpin, ?_, ?_, ?_⟩
  · rw [hstrip]; exact hl
  · rw [hstrip]; exact fun c hc => (hall c hc).1
  · rw [hstrip, hdata]

/-- Claim C2 witness: shape of the code generated at a concrete in-range
point. -/
theorem C2_fixed_shape_witness :
    rootBox.minLat ≤ 3 ∧ (3 : ℚ) ≤ rootBox.maxLat ∧
    rootBox.minLon ≤ 64 ∧ (64 : ℚ) ≤ rootBox.maxLon ∧
    ∃ pin : String, getDigiPin 3 64 = .ok pin ∧
      (stripSeps pin.data).length = L ∧
      (∀ c ∈ stripSeps pin.data, c ∈ digipinAlphabet) ∧
      pin.data = insertSeps (stripSeps pin.data) :=
  ⟨by norm_num [rootBox], by norm_num [rootBox], by norm_num [rootBox], by norm_num [rootBox],
   C2_fixed_shape 3 64 (by norm_num [rootBox]) (by norm_num [rootBox]) (by norm_num [rootBox]) (by norm_num [rootBox])⟩

/-- Claim C3: encode fails with CoordinateOutOfRange exactly when the
latitude or longitude is outside the root box, and the reported axis and
bound are ones actually violated. -/
theorem C3_range_rejection (lat lon : ℚ) :
    ((∃ ax bd, getDigiPin lat lon = .error (.CoordinateOutOfRange ax bd)) ↔
      (lat < rootBox.minLat ∨ rootBox.maxLat < lat ∨
       lon < rootBox.minLon ∨ rootBox.maxLon < lon)) ∧
    (∀ ax bd, getDigiPin lat lon = .error (.CoordinateOutOfRange ax bd) →
      outOfRangeOn lat lon ax bd) := by
  by_cases ha : lat < rootBox.minLat
  · have hres : getDigiPin lat lon = .error (.CoordinateOutOfRange .lat .below) := by
      unfold getDigiPin
      rw [if_pos ha]
    refine ⟨⟨fun _ => Or.inl ha, fun _ => ⟨.lat, .below, hres⟩⟩, ?_⟩
    intro ax bd h
    rw [hres] at h
    injection h with h'
    injection h' with h1 h2
    rw [← h1, ← h2]
    exact ha
  by_cases hb : lat > rootBox.maxLat
  · have hres : getDigiPin lat lon = .error (.CoordinateOutOfRange .lat .above) := by
      unfold getDigiPin
      rw [if_neg ha, if_pos hb]
    refine ⟨⟨fun _ => Or.inr (Or.inl hb), fun _ => ⟨.lat, .above, hres⟩⟩, ?_⟩
    intro ax bd h
    rw [hres] at h
    injection h with h'
    injection h' with h1 h2
    rw [← h1, ← h2]
    exact hb
  by_cases hc : lon < rootBox.minLon
  · have hres : getDigiPin lat lon = .error (.CoordinateOutOfRange .lon .below) := by
      unfold getDigiPin
      rw [if_neg ha, if_neg hb, if_pos hc]
    refine ⟨⟨fun _ => Or.inr (Or.inr (Or.inl hc)), fun _ => ⟨.lon, .below, hres⟩⟩, ?_⟩
    intro ax bd h
    rw [hres] at h
    injection h with h'
    injection h' with h1 h2
    rw [← h1, ← h2]
    exact hc
  by_cases hd : lon > rootBox.maxLon
  · have hres : getDigiPin lat lon = .error (.CoordinateOutOfRange .lon .above) := by
      unfold getDigiPin
      rw [if_neg ha, if_neg hb, if_neg hc, if_pos hd]
    refine ⟨⟨fun _ => Or.inr (Or.inr (Or.inr hd)), fun _ => ⟨.lon, .above, hres⟩⟩, ?_⟩
    intro ax bd h
    rw [hres] at h
    injection h with h'
    injection h' with h1 h2
    rw [← h1, ← h2]
    exact hd
  · obtain ⟨syms, _, hpin, _, _⟩ := getDigiPin_inRange lat lon
      (not_lt.mp ha) (not_lt.mp hb) (not_lt.mp hc) (not_lt.mp hd)
    constructor
    · constructor
      · rintro ⟨ax, bd, h⟩
        rw [hpin] at h
        exact absurd h (by simp)
      · intro hout
        rcases hout with h | h | h | h
        · exact absurd h ha
        · exact absurd h hb
        · exact absurd h hc
        · exact absurd h hd
    · intro ax bd h
      rw [hpin] at h
      exact absurd h (by simp)

/-- Claim C3 witness: a latitude below the root box is rejected with
CoordinateOutOfRange. -/
theorem C3_range_rejection_witness :
    ∃ ax bd, getDigiPin 0 70 = .error (.CoordinateOutOfRange ax bd) :=
  (C3_range_rejection 0 70).1.mpr (Or.inl (by norm_num [rootBox]))

/-- Claim C5: for every (valid) box arising at any subdivision level and
every point of the box — boundary points included — the clamped row and
column indices lie in [0,3], the symbol-table lookup succeeds, and hence
every level of the encoder succeeds. -/
theorem C5_boundary_clamping (b : Box) (lat lon : ℚ)
    (hv1 : b.minLat < b.maxLat) (hv2 : b.minLon < b.maxLon)
    (h1 : b.minLat ≤ lat) (h2 : lat ≤ b.maxLat)
    (h3 : b.minLon ≤ lon) (h4 : lon ≤ b.maxLon) :
    (0 ≤ (cellOf b lat lon).1 ∧ (cellOf b lat lon).1 ≤ 3 ∧
     0 ≤ (cellOf b lat lon).2 ∧ (cellOf b lat lon).2 ≤ 3) ∧
    (∃ ch, symbolAt (cellOf b lat lon) = some ch ∧ ch ∈ digipinAlphabet) ∧
    (∀ n, ∃ syms, encodeLevels n b lat lon = .ok syms) := by
  refine ⟨⟨cellOf_row_nonneg b lat lon, cellOf_row_le b lat lon,
          cellOf_col_nonneg b lat lon, cellOf_col_le b lat lon⟩, ?_, ?_⟩
  · obtain ⟨ch, hc, _, hm, _⟩ := symbolAt_cellOf b lat lon
    exact ⟨ch, hc, hm⟩
  · intro n
    obtain ⟨syms, hs, _, _⟩ := encodeLevels_ok n b lat lon
    exact ⟨syms, hs⟩

/-- Claim C5 witness: clamping at a point lying exactly on the root box
boundary (minimum latitude, maximum longitude). -/
theorem C5_boundary_clamping_witness :
    rootBox.minLat < rootBox.maxLat ∧ rootBox.minLon < rootBox.maxLon ∧
    ((0 ≤ (cellOf rootBox rootBox.minLat rootBox.maxLon).1 ∧
      (cellOf rootBox rootBox.minLat rootBox.maxLon).1 ≤ 3 ∧
      0 ≤ (cellOf rootBox rootBox.minLat rootBox.maxLon).2 ∧
      (cellOf rootBox rootBox.minLat rootBox.maxLon).2 ≤ 3) ∧
     (∃ ch, symbolAt (cellOf rootBox rootBox.minLat rootBox.maxLon) = some ch ∧
       ch ∈ digipinAlphabet) ∧
     (∀ n, ∃ syms, encodeLevels n rootBox rootBox.minLat rootBox.maxLon = .ok syms)) :=
  ⟨by norm_num [rootBox], by norm_num [rootBox],
   C5_boundary_clamping rootBox rootBox.minLat rootBox.maxLon
     (by norm_num [rootBox]) (by norm_num [rootBox]) le_rfl
     (by norm_num [rootBox]) (by norm_num [rootBox]) le_rfl⟩

theorem decodeLoop_err_char :
    ∀ (cs : List Char) (b : Box) (e : CoreError), decodeLoop cs b = .error e →
      ∃ c, c ∈ cs ∧ gridLookup c = none ∧ e = .InvalidCodeSymbol c := by
  intro cs
  induction cs with
  | nil =>
    intro b e h
    simp [decodeLoop] at h
  | cons c cs ih =>
    intro b e h
    rw [decodeLoop] at h
    rcases hg : gridLookup c with _ | rc
    · rw [hg] at h
      injection h with h'
      exact ⟨c, List.mem_cons_self c cs, hg, h'.symm⟩
    · rw [hg] at h
      obtain ⟨c', hmem, hnone, he⟩ := ih (narrow b rc) e h
      exact ⟨c', List.mem_cons_of_mem c hmem, hnone, he⟩

theorem decodeLoop_err_of_bad :
    ∀ (cs : List Char) (b : Box), (∃ c ∈ cs, gridLookup c = none) →
      ∃ c', decodeLoop cs b = .error (.InvalidCodeSymbol c') := by
  intro cs
  induction cs with
  | nil =>
    intro b h
    simp at h
  | cons c cs ih =>
    intro b h
    rcases hg : gridLookup c with _ | rc
    · refine ⟨c, ?_⟩
      rw [decodeLoop, hg]
    · obtain ⟨c0, hc0mem, hc0⟩ := h
      rcases List.mem_cons.mp hc0mem with rfl | hmem
      · rw [hg] at hc0
        exact absurd hc0 (by simp)
      · obtain ⟨c', hc'⟩ := ih (narrow b rc) ⟨c0, hmem, hc0⟩
        refine ⟨c', ?_⟩
        rw [decodeLoop, hg]
        exact hc'

/-- Claim C4: after separator stripping, decode fails with
InvalidCodeLength exactly when the remaining length differs from L
(reporting that length), fails with InvalidCodeSymbol exactly when the
length is L and some remaining character is outside the symbol grid, and
the two failure kinds are distinct. -/
theorem C4_decode_validation (s : String) :
    ((∃ n, getLatLngFromDigiPin s = .error (.InvalidCodeLength n)) ↔
      (stripSeps s.data).length ≠ L) ∧
    (∀ n, getLatLngFromDigiPin s = .error (.InvalidCodeLength n) →
      n = (stripSeps s.data).length) ∧
    ((∃ c, getLatLngFromDigiPin s = .error (.InvalidCodeSymbol c)) ↔
      ((stripSeps s.data).length = L ∧ ∃ c ∈ stripSeps s.data, gridLookup c = none)) ∧
    (∀ c, getLatLngFromDigiPin s = .error (.InvalidCodeSymbol c) →
      c ∈ stripSeps s.data ∧ gridLookup c = none) ∧
    (∀ n c, CoreError.InvalidCodeLength n ≠ CoreError.InvalidCodeSymbol c) := by
  by_cases hlen : (stripSeps s.data).length = L
  · have hres : getLatLngFromDigiPin s =
        (decodeLoop (stripSeps s.data) rootBox).map (fun b =>
          { latitude := (b.minLat + b.maxLat) / 2
            longitude := (b.minLon + b.maxLon) / 2
            box := b }) := by
      unfold getLatLngFromDigiPin
      rw [if_pos hlen]
    refine ⟨?_, ?_, ?_, ?_, fun n c => by simp⟩
    · constructor
      · rintro ⟨n, h⟩
        rw [hres] at h
        rcases hd : decodeLoop (stripSeps s.data) rootBox with e | b'
        · rw [hd] at h
          simp only [Except.map] at h
          injection h with h'
          obtain ⟨c, _, _, he⟩ := decodeLoop_err_char _ _ _ hd
          rw [he] at h'
          exact absurd h'.symm (by simp)
        · rw [hd] at h
          simp [Except.map] at h
      · intro h
        exact absurd hlen h
    · intro n h
      rw [hres] at h
      rcases hd : decodeLoop (stripSeps s.data) rootBox with e | b'
      · rw [hd] at h
        simp only [Except.map] at h
        injection h with h'
        obtain ⟨c, _, _, he⟩ := decodeLoop_err_char _ _ _ hd
        rw [he] at h'
        exact absurd h'.symm (by simp)
      · rw [hd] at h
        simp [Except.map] at h
    · constructor
      · rintro ⟨c, h⟩
        rw [hres] at h
        rcases hd : decodeLoop (stripSeps s.data) rootBox with e | b'
        · rw [hd] at h
          simp only [Except.map] at h
          injection h with h'
          obtain ⟨c0, hc0mem, hc0, he⟩ := decodeLoop_err_char _ _ _ hd
          refine ⟨hlen, c0, hc0mem, hc0⟩
        · rw [hd] at h
          simp [Except.map] at h
      · rintro ⟨_, hbad⟩
        obtain ⟨c', hc'⟩ := decodeLoop_err_of_bad (stripSeps s.data) rootBox hbad
        refine ⟨c', ?_⟩
        rw [hres, hc']
        rfl
    · intro c h
      rw [hres] at h
      rcases hd : decodeLoop (stripSeps s.data) rootBox with e | b'
      · rw [hd] at h
        simp only [Except.map] at h
        injection h with h'
        obtain ⟨c0, hc0mem, hc0, he⟩ := decodeLoop_err_char _ _ _ hd
        rw [he] at h'
        injection h'.symm with hc
        rw [hc]
        exact ⟨hc0mem, hc0⟩
      · rw [hd] at h
        simp [Except.map] at h
  · have hres : getLatLngFromDigiPin s =
        .error (.InvalidCodeLength (stripSeps s.data).length) := by
      unfold getLatLngFromDigiPin
      rw [if_neg hlen]
    refine ⟨⟨fun _ => hlen, fun _ => ⟨_, hres⟩⟩, ?_, ?_, ?_, fun n c => by simp⟩
    · intro n h
      rw [hres] at h
      injection h with h'
      injection h' with h''
      exact h''.symm
    · constructor
      · rintro ⟨c, h⟩
        rw [hres] at h
        injection h with h'
        exact absurd h' (by simp)
      · rintro ⟨hl, _⟩
        exact absurd hl hlen
    · intro c h
      rw [hres] at h
      injection h with h'
      exact absurd h' (by simp)

/-- Claim C4 witness: a 3-character input fails with InvalidCodeLength. -/
theorem C4_decode_validation_witness :
    ∃ n, getLatLngFromDigiPin "FFF" = .error (.InvalidCodeLength n) :=
  (C4_decode_validation "FFF").1.mpr (by decide)

/-- Claim C8 (amended): decode-side gating.  The POST route behaves as the
claim states (missing → MISSING_DIGIPIN, non-string →
INVALID_DIGIPIN_TYPE, blank string → INVALID_DIGIPIN, otherwise the core
is invoked on the string unchanged).  On the GET route the falsiness check
reports an EMPTY string as MISSING_DIGIPIN; only non-empty blank strings
get INVALID_DIGIPIN.  Rejected requests never invoke the core (the result
does not depend on the core function). -/
theorem C8_decode_input_gating_amended
    (f g : String → Except CoreError DecodeResult) (v : JsVal) :
    ((v = .undef ∨ v = .null) →
      postDecodeWith f v = .err 400 "MISSING_DIGIPIN" "Missing required field: digipin") ∧
    (v ≠ .undef → v ≠ .null → v.isStr = false →
      postDecodeWith f v = .err 400 "INVALID_DIGIPIN_TYPE"
        ("Invalid digipin type: expected string, received " ++ typeofStr v)) ∧
    (∀ s, v = .str s → isValidString v = false →
      postDecodeWith f v = .err 400 "INVALID_DIGIPIN" "Invalid digipin: must be a non-empty string") ∧
    (∀ s, v = .str s → isValidString v = true → postDecodeWith f v = decodeRespond (f s)) ∧
    ((v = .undef ∨ v = .null ∨ v.isStr = false ∨ isValidString v = false) →
      postDecodeWith f v = postDecodeWith g v) ∧
    ((v = .undef ∨ v = .str "") →
      getDecodeWith f v = .err 400 "MISSING_DIGIPIN" "Missing required query parameter: digipin") ∧
    (isQueryVal v → v ≠ .undef → v.isStr = false →
      getDecodeWith f v = .err 400 "INVALID_DIGIPIN_TYPE"
        ("Invalid digipin type: expected string, received " ++ typeofStr v)) ∧
    (∀ s, v = .str s → s ≠ "" → isValidString v = false →
      getDecodeWith f v = .err 400 "INVALID_DIGIPIN" "Invalid digipin: must be a non-empty string") ∧
    (∀ s, v = .str s → isValidString v = true → getDecodeWith f v = decodeRespond (f s)) ∧
    ((v = .undef ∨ v = .str "" ∨ v.isStr = false ∨ isValidString v = false) →
      getDecodeWith f v = getDecodeWith g v) := by
  refine ⟨?_, ?_, ?_, ?_, ?_, ?_, ?_, ?_, ?_, ?_⟩
  · rintro (rfl | rfl) <;> rfl
  · intro h1 h2 h3
    unfold postDecodeWith
    rw [if_neg (by rintro (h | h) <;> [exact h1 h; exact h2 h]), if_pos (by simp [h3])]
  · intro s hv hfalse
    subst hv
    unfold postDecodeWith
    rw [if_neg (by simp), if_neg (by simp [JsVal.isStr]), if_pos (by simp [hfalse])]
  · intro s hv htrue
    subst hv
    unfold postDecodeWith
    rw [if_neg (by simp), if_neg (by simp [JsVal.isStr]), if_neg (by simp [htrue])]
    rfl
  · intro hbad
    unfold postDecodeWith
    split_ifs with h1 h2 h3
    · rfl
    · rfl
    · rfl
    · exfalso
      simp only [Bool.not_eq_true', Bool.not_eq_false] at h2 h3
      rcases hbad with h | h | h | h
      · exact h1 (Or.inl h)
      · exact h1 (Or.inr h)
      · rw [h2] at h
        simp at h
      · rw [h3] at h
        simp at h
  · rintro (rfl | rfl) <;> rfl
  · intro hq h2 h3
    cases v with
    | array => rfl
    | object => rfl
    | undef => exact absurd rfl h2
    | str s => simp [JsVal.isStr] at h3
    | null => exact absurd hq (by simp [isQueryVal])
    | num n => exact absurd hq (by simp [isQueryVal])
    | boolean b => exact absurd hq (by simp [isQueryVal])
  · intro s hv hne hfalse
    subst hv
    unfold getDecodeWith
    rw [if_neg (by simp [truthy, hne]), if_neg (by simp [JsVal.isStr]),
        if_pos (by simp [hfalse])]
  · intro s hv htrue
    subst hv
    have hne : s ≠ "" := by
      rintro rfl
      simp [isValidString] at htrue
    unfold getDecodeWith
    rw [if_neg (by simp [truthy, hne]), if_neg (by simp [JsVal.isStr]),
        if_neg (by simp [htrue])]
    rfl
  · intro hbad
    unfold getDecodeWith
    split_ifs with h1 h2 h3
    · rfl
    · rfl
    · rfl
    · exfalso
      simp only [Bool.not_eq_true', Bool.not_eq_false] at h1 h2 h3
      rcases hbad with h | h | h | h
      · rw [h] at h1
        simp [truthy] at h1
      · rw [h] at h1
        simp [truthy] at h1
      · rw [h2] at h
        simp at h
      · rw [h3] at h
        simp at h

/-- Claim C8 counterexample: on the GET route an empty digipin query value
is answered with code MISSING_DIGIPIN, not the INVALID_DIGIPIN the claim
requires for an empty string. -/
theorem C8_decode_input_gating_counterexample :
    getDecodeRoute (.str "") =
      .err 400 "MISSING_DIGIPIN" "Missing required query parameter: digipin" ∧
    "MISSING_DIGIPIN" ≠ "INVALID_DIGIPIN" := by
  exact ⟨rfl, by decide⟩

/-- Claim C8 witness: POST rejects a blank digipin with INVALID_DIGIPIN
and forwards a valid digipin to the core unchanged. -/
theorem C8_decode_input_gating_witness :
    postDecodeWith getLatLngFromDigiPin (.str "") =
      .err 400 "INVALID_DIGIPIN" "Invalid digipin: must be a non-empty string" ∧
    getDecodeWith getLatLngFromDigiPin (.str " ") =
      .err 400 "INVALID_DIGIPIN" "Invalid digipin: must be a non-empty string" ∧
    postDecodeWith getLatLngFromDigiPin (.str "39J") =
      decodeRespond (getLatLngFromDigiPin "39J") :=
  ⟨(C8_decode_input_gating_amended getLatLngFromDigiPin getLatLngFromDigiPin
      (.str "")).2.2.1 "" rfl (by decide),
   (C8_decode_input_gating_amended getLatLngFromDigiPin getLatLngFromDigiPin
      (.str " ")).2.2.2.2.2.2.2.1 " " rfl (by decide) (by decide),
   (C8_decode_input_gating_amended getLatLngFromDigiPin getLatLngFromDigiPin
      (.str "39J")).2.2.2.1 "39J" rfl (by decide)⟩

theorem validNumber_parse (v : JsVal) (h : isValidNumber v = true) :
    parseFloatVal v = .finite (numValue v) := by
  cases v with
  | str s =>
    simp only [isValidNumber] at h
    rcases hp : parseFloat s with q | _ | _
    · simp [parseFloatVal, numValue, hp]
    · rw [hp] at h
      simp at h
    · rw [hp] at h
      simp at h
  | num n =>
    cases n with
    | finite q => rfl
    | nan => simp [isValidNumber] at h
    | infinite => simp [isValidNumber] at h
  | undef => simp [isValidNumber] at h
  | null => simp [isValidNumber] at h
  | boolean b => simp [isValidNumber] at h
  | object => simp [isValidNumber] at h
  | array => simp [isValidNumber] at h

theorem parseFloat_empty : parseFloat "" = JsNum.nan := by decide

theorem queryVal_valid_truthy (v : JsVal) (hq : isQueryVal v)
    (h : isValidNumber v = true) : truthy v = true := by
  cases v with
  | str s =>
    simp only [truthy, decide_eq_true_eq]
    intro hempty
    subst hempty
    simp only [isValidNumber, parseFloat_empty] at h
    simp at h
  | undef => simp [isValidNumber] at h
  | array => simp [isValidNumber] at h
  | object => simp [isValidNumber] at h
  | null => exact absurd hq (by simp [isQueryVal])
  | num n => exact absurd hq (by simp [isQueryVal])
  | boolean b => exact absurd hq (by simp [isQueryVal])

/-- Claim C7: encode requests with missing or non-numeric latitude or
longitude are answered 400 with one of the documented codes and without
invoking the core (the handler result does not depend on the core
function); validated requests invoke the core on the parseFloat of each
input. -/
theorem C7_encode_input_gating (f g : ℚ → ℚ → Except CoreError String) (la lo : JsVal) :
    ((la = .undef ∨ la = .null ∨ lo = .undef ∨ lo = .null ∨
      isValidNumber la = false ∨ isValidNumber lo = false) →
      postEncodeWith f la lo = postEncodeWith g la lo ∧
      respStatus (postEncodeWith f la lo) = 400 ∧
      ∃ code ∈ ["MISSING_LATITUDE", "MISSING_LONGITUDE",
                "INVALID_LATITUDE", "INVALID_LONGITUDE"],
        respCode (postEncodeWith f la lo) = some code) ∧
    ((la ≠ .undef ∧ la ≠ .null ∧ lo ≠ .undef ∧ lo ≠ .null ∧
      isValidNumber la = true ∧ isValidNumber lo = true) →
      ∃ p q, parseFloatVal la = .finite p ∧ parseFloatVal lo = .finite q ∧
        postEncodeWith f la lo = encodeRespond (f p q)) ∧
    (isQueryVal la → isQueryVal lo →
      ((isValidNumber la = false ∨ isValidNumber lo = false) →
        getEncodeWith f la lo = getEncodeWith g la lo ∧
        respStatus (getEncodeWith f la lo) = 400 ∧
        ∃ code ∈ ["MISSING_PARAMETERS", "INVALID_LATITUDE", "INVALID_LONGITUDE"],
          respCode (getEncodeWith f la lo) = some code) ∧
      ((isValidNumber la = true ∧ isValidNumber lo = true) →
        ∃ p q, parseFloatVal la = .finite p ∧ parseFloatVal lo = .finite q ∧
          getEncodeWith f la lo = encodeRespond (f p q))) := by
  refine ⟨?_, ?_, ?_⟩
  · intro hbad
    unfold postEncodeWith
    split_ifs with h1 h2 h3 h4
    · exact ⟨rfl, rfl, "MISSING_LATITUDE", by simp, rfl⟩
    · exact ⟨rfl, rfl, "MISSING_LONGITUDE", by simp, rfl⟩
    · exact ⟨rfl, rfl, "INVALID_LATITUDE", by simp, rfl⟩
    · exact ⟨rfl, rfl, "INVALID_LONGITUDE", by simp, rfl⟩
    · exfalso
      simp only [Bool.not_eq_true', Bool.not_eq_false] at h3 h4
      rcases hbad with h | h | h | h | h | h
      · exact h1 (Or.inl h)
      · exact h1 (Or.inr h)
      · exact h2 (Or.inl h)
      · exact h2 (Or.inr h)
      · rw [h3] at h
        simp at h
      · rw [h4] at h
        simp at h
  · rintro ⟨hn1, hn2, hn3, hn4, hv1, hv2⟩
    refine ⟨numValue la, numValue lo, validNumber_parse la hv1, validNumber_parse lo hv2, ?_⟩
    unfold postEncodeWith
    rw [if_neg (by rintro (h | h) <;> [exact hn1 h; exact hn2 h]),
        if_neg (by rintro (h | h) <;> [exact hn3 h; exact hn4 h]),
        if_neg (by simp [hv1]), if_neg (by simp [hv2])]
  · intro hqla hqlo
    constructor
    · intro hbad
      unfold getEncodeWith
      split_ifs with h1 h2 h3
      · exact ⟨rfl, rfl, "MISSING_PARAMETERS", by simp, rfl⟩
      · exact ⟨rfl, rfl, "INVALID_LATITUDE", by simp, rfl⟩
      · exact ⟨rfl, rfl, "INVALID_LONGITUDE", by simp, rfl⟩
      · exfalso
        simp only [Bool.not_eq_true', Bool.not_eq_false] at h2 h3
        rcases hbad with h | h
        · rw [h2] at h
          simp at h
        · rw [h3] at h
          simp at h
    · rintro ⟨hv1, hv2⟩
      refine ⟨numValue la, numValue lo, validNumber_parse la hv1, validNumber_parse lo hv2, ?_⟩
      unfold getEncodeWith
      rw [if_neg (by simp [queryVal_valid_truthy la hqla hv1, queryVal_valid_truthy lo hqlo hv2]),
          if_neg (by simp [hv1]), if_neg (by simp [hv2])]

/-- Claim C7 witness: a non-numeric POST latitude is rejected with
INVALID_LATITUDE regardless of the core, and a valid pair reaches the
core via parseFloat. -/
theorem C7_encode_input_gating_witness :
    (postEncodeWith getDigiPin (.str "abc") (.str "20") =
       postEncodeWith (fun _ _ => .error .InternalIndexError) (.str "abc") (.str "20") ∧
     respStatus (postEncodeWith getDigiPin (.str "abc") (.str "20")) = 400 ∧
     ∃ code ∈ ["MISSING_LATITUDE", "MISSING_LONGITUDE",
               "INVALID_LATITUDE", "INVALID_LONGITUDE"],
       respCode (postEncodeWith getDigiPin (.str "abc") (.str "20")) = some code) ∧
    ∃ p q, parseFloatVal (JsVal.str "20") = .finite p ∧
      parseFloatVal (JsVal.str "77.2") = .finite q ∧
      postEncodeWith getDigiPin (.str "20") (.str "77.2") = encodeRespond (getDigiPin p q) :=
  ⟨(C7_encode_input_gating getDigiPin (fun _ _ => .error .InternalIndexError)
      (.str "abc") (.str "20")).1 (Or.inr (Or.inr (Or.inr (Or.inr (Or.inl (by decide)))))),
   (C7_encode_input_gating getDigiPin getDigiPin (.str "20") (.str "77.2")).2.1
      ⟨by decide, by decide, by decide, by decide, by decide, by decide⟩⟩

/-- Claim C6 counterexample: two decode requests whose core failures have
distinct kinds (InvalidCodeLength vs InvalidCodeSymbol) receive the SAME
machine-readable code string DECODING_FAILED from the adapter. -/
theorem C6_failure_kinds_counterexample :
    getLatLngFromDigiPin "FFF" = .error (.InvalidCodeLength 3) ∧
    getLatLngFromDigiPin "AAAAAAAAAA" = .error (.InvalidCodeSymbol 'A') ∧
    CoreError.InvalidCodeLength 3 ≠ CoreError.InvalidCodeSymbol 'A' ∧
    respCode (postDecode (.str "FFF")) = respCode (postDecode (.str "AAAAAAAAAA")) ∧
    respCode (postDecode (.str "FFF")) = some "DECODING_FAILED" := by
  decide

/-- Claim C6 (amended): the adapter maps every core failure of a decode
route to the single code DECODING_FAILED and every core failure of the
POST encode route to the single code ENCODING_FAILED, carrying the core's
message; distinct core failure kinds reaching the same route are collapsed
into that one generic code and distinguished only by the message text. -/
theorem C6_failure_kinds_amended :
    (∀ (s : String) (e : CoreError), isValidString (.str s) = true →
      getLatLngFromDigiPin s = .error e →
      postDecode (.str s) = .err 400 "DECODING_FAILED" e.message ∧
      getDecodeRoute (.str s) = .err 400 "DECODING_FAILED" e.message) ∧
    (∀ (p q : ℚ) (e : CoreError), getDigiPin p q = .error e →
      postEncode (.num (.finite p)) (.num (.finite q)) =
        .err 400 "ENCODING_FAILED" e.message) := by
  constructor
  · intro s e hvalid herr
    have hne : s ≠ "" := by
      rintro rfl
      simp [isValidString] at hvalid
    constructor
    · unfold postDecode postDecodeWith
      rw [if_neg (by simp), if_neg (by simp [JsVal.isStr]), if_neg (by simp [hvalid])]
      show decodeRespond (getLatLngFromDigiPin s) = _
      rw [herr]
      rfl
    · unfold getDecodeRoute getDecodeWith
      rw [if_neg (by simp [truthy, hne]), if_neg (by simp [JsVal.isStr]),
          if_neg (by simp [hvalid])]
      show decodeRespond (getLatLngFromDigiPin s) = _
      rw [herr]
      rfl
  · intro p q e herr
    unfold postEncode postEncodeWith
    rw [if_neg (by simp), if_neg (by simp), if_neg (by simp [isValidNumber]),
        if_neg (by simp [isValidNumber])]
    show encodeRespond (getDigiPin p q) = _
    rw [herr]
    rfl

/-- Claim C6 witness: the amended mapping at a concrete failing decode
request. -/
theorem C6_failure_kinds_witness :
    postDecode (.str "FFF") =
      .err 400 "DECODING_FAILED" (CoreError.InvalidCodeLength 3).message ∧
    getDecodeRoute (.str "FFF") =
      .err 400 "DECODING_FAILED" (CoreError.InvalidCodeLength 3).message :=
  C6_failure_kinds_amended.1 "FFF" (.InvalidCodeLength 3) (by decide) (by decide)

/-- Claim C9: every string whose parseFloat result is finite passes
isValidNumber — including strings with trailing non-numeric characters
such as "77.2abc" — and both encode routes then forward the parsed numeric
prefix to the core. -/
theorem C9_lenient_numeric_validation :
    (∀ (s : String) (q : ℚ), parseFloat s = .finite q → isValidNumber (.str s) = true) ∧
    (∀ (f : ℚ → ℚ → Except CoreError String) (s t : String) (p q : ℚ),
      parseFloat s = .finite p → parseFloat t = .finite q →
      postEncodeWith f (.str s) (.str t) = encodeRespond (f p q) ∧
      getEncodeWith f (.str s) (.str t) = encodeRespond (f p q)) ∧
    parseFloat "77.2abc" = .finite (386 / 5) ∧
    isValidNumber (.str "77.2abc") = true := by
  have h772 : parseFloat "77.2abc" =
      JsNum.finite (1 * (((77 : ℕ) : ℚ) + ((2 : ℕ) : ℚ) / 10 ^ (1 : ℕ)) * (10 : ℚ) ^ (0 : ℤ)) :=
    rfl
  refine ⟨?_, ?_, by rw [h772]; norm_num, by decide⟩
  · intro s q hp
    simp [isValidNumber, hp]
  · intro f s t p q hs ht
    have hvs : isValidNumber (.str s) = true := by simp [isValidNumber, hs]
    have hvt : isValidNumber (.str t) = true := by simp [isValidNumber, ht]
    have hns : numValue (.str s) = p := by simp [numValue, hs]
    have hnt : numValue (.str t) = q := by simp [numValue, ht]
    have hnes : s ≠ "" := by
      rintro rfl
      rw [parseFloat_empty] at hs
      exact absurd hs (by simp)
    have hnet : t ≠ "" := by
      rintro rfl
      rw [parseFloat_empty] at ht
      exact absurd ht (by simp)
    constructor
    · unfold postEncodeWith
      rw [if_neg (by simp), if_neg (by simp), if_neg (by simp [hvs]),
          if_neg (by simp [hvt]), hns, hnt]
    · unfold getEncodeWith
      rw [if_neg (by simp [truthy, hnes, hnet]), if_neg (by simp [hvs]),
          if_neg (by simp [hvt]), hns, hnt]

/-- Claim C9 witness: the lenient acceptance at "77.2abc" and the
forwarding of the parsed prefixes to the real core. -/
theorem C9_lenient_numeric_validation_witness :
    isValidNumber (.str "77.2abc") = true ∧
    postEncode (.str "77.2abc") (.str "28.6") =
      encodeRespond (getDigiPin (386 / 5) (143 / 5)) :=
  ⟨C9_lenient_numeric_validation.1 "77.2abc" (386 / 5)
      (by rw [show parseFloat "77.2abc" =
          JsNum.finite (1 * (((77 : ℕ) : ℚ) + ((2 : ℕ) : ℚ) / 10 ^ (1 : ℕ)) * (10 : ℚ) ^ (0 : ℤ))
          from rfl]; norm_num),
   (C9_lenient_numeric_validation.2.1 getDigiPin "77.2abc" "28.6" (386 / 5) (143 / 5)
      (by rw [show parseFloat "77.2abc" =
          JsNum.finite (1 * (((77 : ℕ) : ℚ) + ((2 : ℕ) : ℚ) / 10 ^ (1 : ℕ)) * (10 : ℚ) ^ (0 : ℤ))
          from rfl]; norm_num)
      (by rw [show parseFloat "28.6" =
          JsNum.finite (1 * (((28 : ℕ) : ℚ) + ((6 : ℕ) : ℚ) / 10 ^ (1 : ℕ)) * (10 : ℚ) ^ (0 : ℤ))
          from rfl]; norm_num)).1⟩

/-- Claim C10: POST/PUT/PATCH requests with an absent or non-JSON
Content-Type header are answered 415 INVALID_CONTENT_TYPE by the
middleware before any route handler runs, regardless of the path; GET
requests are never rejected by this check. -/
theorem C10_content_type_gate (m : Method) (ct : Option String) :
    ((m = .POST ∨ m = .PUT ∨ m = .PATCH) → ctBad ct = true →
      validateJsonContentType m ct = some ctErrResp ∧
      ∀ (r r' : Method → String → ApiResponse) (p p' : String),
        appPipeline m ct r p = ctErrResp ∧ appPipeline m ct r p = appPipeline m ct r' p') ∧
    ((m = .POST ∨ m = .PUT ∨ m = .PATCH) → ctBad ct = false →
      validateJsonContentType m ct = none ∧
      ∀ (r : Method → String → ApiResponse) (p : String), appPipeline m ct r p = r m p) ∧
    (validateJsonContentType .GET ct = none ∧
      ∀ (r : Method → String → ApiResponse) (p : String),
        appPipeline .GET ct r p = r .GET p) := by
  have hget : validateJsonContentType .GET ct = none := by
    unfold validateJsonContentType
    rw [if_neg (by simp)]
  refine ⟨?_, ?_, hget, fun r p => by simp [appPipeline, hget]⟩
  · intro hm hbad
    have hv : validateJsonContentType m ct = some ctErrResp := by
      unfold validateJsonContentType
      rw [if_pos hm]
      cases ct with
      | none => rfl
      | some s =>
        simp only [ctBad] at hbad
        simp [hbad]
    exact ⟨hv, fun r r' p p' => by simp [appPipeline, hv]⟩
  · intro hm hgood
    cases ct with
    | none => simp [ctBad] at hgood
    | some s =>
      simp only [ctBad] at hgood
      have hv : validateJsonContentType m (some s) = none := by
        unfold validateJsonContentType
        rw [if_pos hm]
        simp [hgood]
      exact ⟨hv, fun r p => by simp [appPipeline, hv]⟩

/-- Claim C10 witness: a POST with no Content-Type header is rejected 415
before the route runs, and a GET with no header passes the check. -/
theorem C10_content_type_gate_witness :
    validateJsonContentType .POST none = some ctErrResp ∧
    appPipeline .POST none (fun _ _ => .ok (.pin "x")) "/api/digipin/encode" = ctErrResp ∧
    validateJsonContentType .GET none = none :=
  ⟨((C10_content_type_gate .POST none).1 (Or.inl rfl) (by decide)).1,
   (((C10_content_type_gate .POST none).1 (Or.inl rfl) (by decide)).2
      (fun _ _ => .ok (.pin "x")) (fun _ _ => .ok (.pin "x"))
      "/api/digipin/encode" "/api/digipin/encode").1,
   (C10_content_type_gate .GET none).2.2.1⟩
